/-
  Spec2Proof.lean

  A verification development for the pen.lighting front-end repository.

  Shallow embedding of the three core components named by the specification:
  - the kinematics engine `PenPhysics` (src/unnamed/part_016),
  - the participant channel `UserRoomState` (src/unnamed/part_017),
  - the display admission logic of `OBSRoom.vue`
    (pickSubset / displayedPenlights / makeDuplicates / offsetFor).

  JavaScript numbers are modelled as rationals (`ℚ`); `Math.PI`, `Math.cos`
  and `Math.sin` are abstract parameters, since no claim depends on their
  values; a possibly-missing / non-finite numeric input is `Option ℚ` with
  `none` standing for "absent or not a finite number".  The 32-bit integer
  coercion performed by JavaScript bitwise operators is modelled explicitly
  on `ℤ` with `% 2^32`.
-/
import Mathlib

namespace PenLighting

/-! ## Kinematics engine: `PenPhysics` (src/unnamed/part_016) -/

/-- Configuration of a `PenPhysics` instance, after the constructor has
resolved option defaults.  `restTheta` and `restOmega` are stored in
radians, exactly as the constructor converts them.  `piQ` is the rational
stand-in for `Math.PI`. -/
structure PhysConfig where
  maxAngleDeg : ℚ
  velocityGain : ℚ
  tauVx : ℚ
  k : ℚ
  c : ℚ
  minEmitDeltaDeg : ℚ
  restTheta : ℚ
  restOmega : ℚ
  interval : ℚ
  piQ : ℚ
  deriving Repr, DecidableEq

/-- Degrees to radians: `d * (Math.PI / 180)`. -/
def degToRad (piQ d : ℚ) : ℚ := d * (piQ / 180)

/-- Radians to degrees: `r * (180 / Math.PI)`. -/
def radToDeg (piQ r : ℚ) : ℚ := r * (180 / piQ)

/-- Mutable state of a `PenPhysics` instance.  `lastEmitted = none` models
the initial `NaN` sentinel of `_lastEmittedThetaDeg`. -/
structure PhysState where
  theta : ℚ
  omega : ℚ
  target : ℚ
  prevX : ℚ
  vxFilt : ℚ
  lastEmitTime : ℚ
  lastEmitted : Option ℚ
  forceEmit : Bool
  lastTick : ℚ
  deriving Repr, DecidableEq

/-- `PenPhysics._readX`: read the normalized x, substituting `0.5` when the
value is absent or not a finite number, then clamping into `[0,1]`. -/
def readX (v : Option ℚ) : ℚ :=
  let x := v.getD (1/2)
  if x < 0 then 0 else if x > 1 then 1 else x

/-- Initial state built by the `PenPhysics` constructor: zero angle,
velocity and filtered velocity; `prevX` sampled once via `_readX`. -/
def initPhys (x0 : Option ℚ) (t0 : ℚ) : PhysState :=
  { theta := 0, omega := 0, target := 0, prevX := readX x0, vxFilt := 0,
    lastEmitTime := 0, lastEmitted := none, forceEmit := false, lastTick := t0 }

/-- The `dt` used by a productive `_tick`: `(now - lastTick)/1000`, capped
at 50 ms (`0.05` s). -/
def tickDt (s : PhysState) (now : ℚ) : ℚ :=
  let d := (now - s.lastTick) / 1000
  if d > 1/20 then 1/20 else d

/-- Raw horizontal velocity of a tick: `(x - prevX) / dt`. -/
def tickRawVx (s : PhysState) (now : ℚ) (xin : Option ℚ) : ℚ :=
  (readX xin - s.prevX) / tickDt s now

/-- Low-pass filtered velocity after a tick. -/
def tickVxFilt (cfg : PhysConfig) (s : PhysState) (now : ℚ) (xin : Option ℚ) : ℚ :=
  let dt := tickDt s now
  s.vxFilt + (tickRawVx s now xin - s.vxFilt) * (dt / (cfg.tauVx + dt))

/-- Target lean in degrees: `-gain * vxFilt`, clamped to `±maxAngleDeg`
with the same two-branch structure as the source. -/
def tickTargetDeg (cfg : PhysConfig) (s : PhysState) (now : ℚ) (xin : Option ℚ) : ℚ :=
  let t := -cfg.velocityGain * tickVxFilt cfg s now xin
  if t > cfg.maxAngleDeg then cfg.maxAngleDeg
  else if t < -cfg.maxAngleDeg then -cfg.maxAngleDeg
  else t

/-- Target lean in radians. -/
def tickTarget (cfg : PhysConfig) (s : PhysState) (now : ℚ) (xin : Option ℚ) : ℚ :=
  degToRad cfg.piQ (tickTargetDeg cfg s now xin)

/-- Angular velocity after the semi-implicit Euler step (before clamping). -/
def tickOmegaRaw (cfg : PhysConfig) (s : PhysState) (now : ℚ) (xin : Option ℚ) : ℚ :=
  let dt := tickDt s now
  s.omega + (cfg.k * (tickTarget cfg s now xin - s.theta) - cfg.c * s.omega) * dt

/-- Angle after the semi-implicit Euler step (before clamping). -/
def tickThetaRaw (cfg : PhysConfig) (s : PhysState) (now : ℚ) (xin : Option ℚ) : ℚ :=
  s.theta + tickOmegaRaw cfg s now xin * tickDt s now

/-- Angle after the hard clamp to `±maxAngleDeg` (in radians). -/
def tickTheta (cfg : PhysConfig) (s : PhysState) (now : ℚ) (xin : Option ℚ) : ℚ :=
  let maxRad := degToRad cfg.piQ cfg.maxAngleDeg
  let t := tickThetaRaw cfg s now xin
  if t > maxRad then maxRad else if t < -maxRad then -maxRad else t

/-- Angular velocity after the hard clamp (zeroed on clamp when it pushes
further out of range). -/
def tickOmega (cfg : PhysConfig) (s : PhysState) (now : ℚ) (xin : Option ℚ) : ℚ :=
  let maxRad := degToRad cfg.piQ cfg.maxAngleDeg
  let t := tickThetaRaw cfg s now xin
  let w := tickOmegaRaw cfg s now xin
  if t > maxRad then (if w > 0 then 0 else w)
  else if t < -maxRad then (if w < 0 then 0 else w)
  else w

/-- The angle reported to the callback, in degrees (post-clamp). -/
def tickThetaDeg (cfg : PhysConfig) (s : PhysState) (now : ℚ) (xin : Option ℚ) : ℚ :=
  radToDeg cfg.piQ (tickTheta cfg s now xin)

/-- The "at rest" test of `_tick`: small angular speed and small distance
to the target, both evaluated on the post-update values. -/
def tickAtRest (cfg : PhysConfig) (s : PhysState) (now : ℚ) (xin : Option ℚ) : Bool :=
  decide (|tickOmega cfg s now xin| < cfg.restOmega) &&
  decide (|tickTarget cfg s now xin - tickTheta cfg s now xin| < cfg.restTheta)

/-- The "changed enough" test of `_tick`: true when nothing was emitted yet
(`NaN` sentinel), or when the angle moved at least `minEmitDeltaDeg` away
from the last emitted value. -/
def tickChangedEnough (cfg : PhysConfig) (s : PhysState) (now : ℚ) (xin : Option ℚ) : Bool :=
  match s.lastEmitted with
  | none => true
  | some l => decide (|tickThetaDeg cfg s now xin - l| ≥ cfg.minEmitDeltaDeg)

/-- The emission decision of `_tick`. -/
def tickShouldEmit (cfg : PhysConfig) (s : PhysState) (now : ℚ) (xin : Option ℚ) : Bool :=
  s.forceEmit ||
    (!tickAtRest cfg s now xin &&
      decide (now - s.lastEmitTime ≥ cfg.interval) &&
      tickChangedEnough cfg s now xin)

/-- One invocation of `PenPhysics._tick` at timestamp `now` with input
`xin`; returns the successor state and the emitted angle, if any.  A
non-positive `dt` reproduces the early return of the source (only
`lastTick` is refreshed, nothing is emitted, `forceEmit` is kept). -/
def tick (cfg : PhysConfig) (s : PhysState) (now : ℚ) (xin : Option ℚ) :
    PhysState × Option ℚ :=
  if (now - s.lastTick) / 1000 ≤ 0 then
    ({ s with lastTick := now }, none)
  else
    let emit := tickShouldEmit cfg s now xin
    let thD := tickThetaDeg cfg s now xin
    ({ theta := tickTheta cfg s now xin,
       omega := tickOmega cfg s now xin,
       target := tickTarget cfg s now xin,
       prevX := readX xin,
       vxFilt := tickVxFilt cfg s now xin,
       lastEmitTime := if emit then now else s.lastEmitTime,
       lastEmitted := if emit then some thD else s.lastEmitted,
       forceEmit := false,
       lastTick := now },
     if emit then some thD else none)

/-- Run the engine over a list of `(timestamp, x-input)` samples, collecting
every emitted angle in order. -/
def runPhys (cfg : PhysConfig) (s : PhysState) :
    List (ℚ × Option ℚ) → PhysState × List ℚ
  | [] => (s, [])
  | (t, x) :: rest =>
    let r := tick cfg s t x
    let r2 := runPhys cfg r.1 rest
    (r2.1, r.2.toList ++ r2.2)

/-! ## Participant channel: `UserRoomState` (src/unnamed/part_017)

The channel is modelled as an explicit state machine driven by events: ref
mutations, browser socket events, the one-shot debounce and reconnect
timers, and `destroy()`.  WebSocket instances are identified by their index
in `sockets` (each `connect()` appends a fresh one); `readyState` follows
the DOM numbering `connecting = 0, open = 1, closing = 2, closed = 3`.
Pending one-shot timers are recorded as state (`sendTimer` for the debounce
timeout, `pendingReconnects` counting scheduled reconnect timeouts); the
event scheduler fires them via `ChanEvent` at any later moment. -/

/-- DOM `WebSocket.readyState`. -/
inductive ReadyState
  | connecting
  | opened
  | closing
  | closedRS
  deriving Repr, DecidableEq

/-- The four current ref values `xRef, yRef, thetaRef, colorRef`. -/
structure RefVals where
  x : ℚ
  y : ℚ
  theta : ℚ
  color : ℚ
  deriving Repr, DecidableEq

/-- Which ref a mutation writes. -/
inductive RefField
  | x
  | y
  | theta
  | color
  deriving Repr, DecidableEq

/-- Write one ref. -/
def RefVals.set (r : RefVals) : RefField → ℚ → RefVals
  | .x, v => { r with x := v }
  | .y, v => { r with y := v }
  | .theta, v => { r with theta := v }
  | .color, v => { r with color := v }

/-- The `{ type: 'update', ... }` payload built by `_sendUpdate`. -/
structure Payload where
  x : ℚ
  y : ℚ
  theta : ℚ
  color : ℚ
  deriving Repr, DecidableEq

/-- Messages written to a socket by the channel. -/
inductive Msg
  | hello (roomCode nickname : String) (password : Option String)
  | update (p : Payload)
  deriving Repr, DecidableEq

/-- Full state of a `UserRoomState` instance (plus the ghost fields
`sent`, recording every message handed to `WebSocket.send`, and
`connectCount`, counting `connect()` invocations). -/
structure ChanState where
  roomCode : String
  nickname : String
  password : Option String
  refs : RefVals
  connectionStatus : String
  sockets : List ReadyState
  currentSock : Option Nat
  closedManually : Bool
  sendTimer : Bool
  pendingReconnects : Nat
  sent : List Msg
  connectCount : Nat
  deriving Repr, DecidableEq

/-- Whether `this._socket` exists and has `readyState === WebSocket.OPEN`. -/
def ChanState.sockOpen (s : ChanState) : Bool :=
  match s.currentSock with
  | none => false
  | some i => decide (s.sockets.get? i = some .opened)

/-- The payload `_sendUpdate` builds from the current refs (the `Number(…)`
coercions are identities on the rational model). -/
def payloadOf (r : RefVals) : Payload :=
  { x := r.x, y := r.y, theta := r.theta, color := r.color }

/-- `UserRoomState.connect()`: reset the manual-close flag, mark the status
`connecting`, and open a fresh socket which becomes `this._socket`. -/
def ChanState.connect (s : ChanState) : ChanState :=
  { s with closedManually := false,
           connectionStatus := "connecting",
           sockets := s.sockets ++ [.connecting],
           currentSock := some s.sockets.length,
           connectCount := s.connectCount + 1 }

/-- `UserRoomState._scheduleSend()`: do nothing unless `this._socket` is
open; do nothing if a debounce timer is already pending; otherwise arm the
one-shot debounce timer. -/
def ChanState.scheduleSend (s : ChanState) : ChanState :=
  if s.sockOpen = false then s
  else if s.sendTimer then s
  else { s with sendTimer := true }

/-- `UserRoomState._sendUpdate()`: do nothing unless `this._socket` is
open; otherwise send the payload built from the current refs. -/
def ChanState.sendUpdate (s : ChanState) : ChanState :=
  if s.sockOpen = false then s
  else { s with sent := s.sent ++ [.update (payloadOf s.refs)] }

/-- Events the instance can experience: a write to one of the watched refs,
the three socket events delivered by the browser for socket `sid`, the two
one-shot timers firing, and a `destroy()` call. -/
inductive ChanEvent
  | mutate (f : RefField) (v : ℚ)
  | sockOpenEvt (sid : Nat)
  | sockCloseEvt (sid : Nat)
  | sockErrorEvt (sid : Nat)
  | debounceFire
  | reconnectFire
  | destroyCall
  deriving Repr, DecidableEq

/-- Overwrite the `readyState` of socket `sid`. -/
def ChanState.setSock (s : ChanState) (sid : Nat) (r : ReadyState) : ChanState :=
  { s with sockets := s.sockets.set sid r }

/-- One step of the channel state machine.  An event whose precondition
does not hold (a timer firing that is not pending, a socket event for a
socket not in the matching `readyState`) is a no-op: the scheduler never
produces it. -/
def ChanState.step (s : ChanState) : ChanEvent → ChanState
  | .mutate f v =>
    -- ref write, then the watcher runs `_scheduleSend()`
    ChanState.scheduleSend { s with refs := s.refs.set f v }
  | .sockOpenEvt sid =>
    -- browser: a connecting socket finished opening; then the 'open'
    -- handler sets the status, sends the hello and schedules the initial
    -- state flush
    if s.sockets.get? sid = some .connecting then
      let s1 := (s.setSock sid .opened)
      ChanState.scheduleSend
        { s1 with connectionStatus := "open",
                  sent := s1.sent ++ [.hello s.roomCode s.nickname s.password] }
    else s
  | .sockCloseEvt sid =>
    -- browser: a live socket closed; the 'close' handler sets the status
    -- and, unless closed manually, schedules one reconnect timeout
    match s.sockets.get? sid with
    | some .closedRS => s
    | none => s
    | some _ =>
      let s1 := (s.setSock sid .closedRS)
      if s1.closedManually then { s1 with connectionStatus := "closed" }
      else { s1 with connectionStatus := "closed",
                     pendingReconnects := s1.pendingReconnects + 1 }
  | .sockErrorEvt sid =>
    -- the 'error' handler sets the status and force-closes the socket
    match s.sockets.get? sid with
    | some .connecting =>
      { (s.setSock sid .closing) with connectionStatus := "error" }
    | some .opened =>
      { (s.setSock sid .closing) with connectionStatus := "error" }
    | _ => { s with connectionStatus := "error" }
  | .debounceFire =>
    -- the debounce timeout fires: clear it, then `_sendUpdate()`
    if s.sendTimer then ChanState.sendUpdate { s with sendTimer := false }
    else s
  | .reconnectFire =>
    -- a scheduled reconnect timeout fires: `connect()`
    if s.pendingReconnects > 0 then
      ChanState.connect { s with pendingReconnects := s.pendingReconnects - 1 }
    else s
  | .destroyCall =>
    -- destroy(): set the manual flag, clear the debounce timer, close the
    -- socket when its readyState is ≤ 1, then drop the reference
    let s1 := { s with closedManually := true, sendTimer := false }
    let s2 :=
      match s1.currentSock with
      | none => s1
      | some sid =>
        match s1.sockets.get? sid with
        | some .connecting => s1.setSock sid .closing
        | some .opened => s1.setSock sid .closing
        | _ => s1
    { s2 with currentSock := none, connectionStatus := "closed" }

/-- State built by the constructor: initial refs `(-100, -100, 0, 0)`,
status `idle`, then the constructor immediately calls `connect()` and wires
the watchers. -/
def initChan (roomCode nickname : String) (password : Option String) : ChanState :=
  ChanState.connect
    { roomCode := roomCode, nickname := nickname, password := password,
      refs := { x := -100, y := -100, theta := 0, color := 0 },
      connectionStatus := "idle",
      sockets := [], currentSock := none,
      closedManually := false, sendTimer := false,
      pendingReconnects := 0, sent := [], connectCount := 0 }

/-- Fold a list of events over the channel state machine. -/
def chanRun (s : ChanState) (es : List ChanEvent) : ChanState :=
  es.foldl ChanState.step s

/-! ## Display admission: `OBSRoom.vue`

`pickSubset` consumes one `Math.random()` draw per loop iteration; the
random source is modelled as a function `draws` giving, for loop counter
`i`, the value `j = Math.floor(Math.random() * (i + 1))`.  The contract of
`Math.random()` (a result in `[0,1)`) makes `draws i ≤ i`; theorems carry
that contract as a hypothesis.  `Math.cos`, `Math.sin` and `Math.PI` are
abstract parameters `cosF`, `sinF`, `piQ`: no claim depends on their
values. -/

/-- The destructuring swap `[idxs[i], idxs[j]] = [idxs[j], idxs[i]]`; with
both indices in bounds (as the `Math.random()` contract guarantees) it
exchanges positions `i` and `j`. -/
def listSwap (l : List ℕ) (i j : ℕ) : List ℕ :=
  if h : i < l.length ∧ j < l.length then
    (l.set i (l.get ⟨j, h.2⟩)).set j (l.get ⟨i, h.1⟩)
  else l

/-- The Fisher–Yates loop of `pickSubset`, running `i` from the given start
value down to `1` (`for (let i = N - 1; i > 0; i--)`). -/
def fyAux (draws : ℕ → ℕ) : ℕ → List ℕ → List ℕ
  | 0, l => l
  | i + 1, l => fyAux draws i (listSwap l (i + 1) (draws (i + 1)))

/-- `pickSubset(maxN)`: build `[0, …, N-1]`, Fisher–Yates shuffle it, and
keep the first `maxN` indices as the current subset. -/
def pickSubset (draws : ℕ → ℕ) (n maxN : ℕ) : List ℕ :=
  (fyAux draws (n - 1) (List.range n)).take maxN

/-- The base-user stage of `displayedPenlights`: when `maxConcurrent` is
set (non-zero) and exceeded, keep only the users whose roster index is in
the chosen subset; otherwise pass the roster through unchanged. -/
def displayedBase {α : Type} (users : List α) (maxN : ℕ) (sub : List ℕ) : List α :=
  if maxN ≠ 0 ∧ users.length > maxN then
    ((users.enum.filter (fun p => p.1 ∈ sub)).map (fun p => p.2))
  else users

/-- The five star-pattern angles of `offsetFor`, in degrees. -/
def starAngles : List ℚ := [0, 72, 144, 216, 288]

/-- The angle (degrees) chosen by `offsetFor` for participant index `i`,
duplicate index `d`: `angles[(i + d) % angles.length]`. -/
def offsetAngleDeg (i d : ℕ) : ℚ :=
  starAngles.getD ((i + d) % starAngles.length) 0

/-- The radius chosen by `offsetFor`: `0.18 + ((i + d) % 3) * 0.05`. -/
def offsetRadius (i d : ℕ) : ℚ :=
  18/100 + (((i + d) % 3 : ℕ) : ℚ) * (5/100)

/-- `offsetFor(i, d)`: polar offset `(dx, dy)` of a duplicate, with the
angle converted to radians and fed to `Math.cos` / `Math.sin`. -/
def offsetFor (cosF sinF : ℚ → ℚ) (piQ : ℚ) (i d : ℕ) : ℚ × ℚ :=
  let a := degToRad piQ (offsetAngleDeg i d)
  (offsetRadius i d * cosF a, offsetRadius i d * sinF a)

/-- One entry of the list `makeDuplicates` consumes and produces (the
fields of a base user / a display slot). -/
structure Slot where
  x : ℚ
  y : ℚ
  theta : ℚ
  hex : String
  nickname : String
  opacity : ℚ
  key : String
  deriving Repr, DecidableEq

/-- Room configuration and ambient values `makeDuplicates` reads. -/
structure DupCtx where
  duplicateUsers : Bool
  duplicationThreshold : ℚ
  stageW : ℚ
  stageH : ℚ
  cosF : ℚ → ℚ
  sinF : ℚ → ℚ
  piQ : ℚ

/-- `duplicatesPerUser`: `min(3, max(1, Math.ceil(deficit / max(1, count))))`
with `deficit = max(0, threshold - count)`. -/
def perUserOf (threshold : ℚ) (count : ℕ) : ℤ :=
  min 3 (max 1 ⌈(max 0 (threshold - count)) / (max 1 (count : ℚ))⌉)

/-- `makeDuplicates(baseUsers)`: pass everything through with opacity 1 and
key `u-i` when duplication is off, the threshold is unset, or the roster
reaches it; otherwise also emit `perUser` offset duplicates per user with
opacity 0.8 and key `u-i-dd`. -/
def makeDuplicates (ctx : DupCtx) (baseUsers : List Slot) : List Slot :=
  let count := baseUsers.length
  if ctx.duplicateUsers = false ∨ ctx.duplicationThreshold ≤ 0 ∨
      ctx.duplicationThreshold ≤ (count : ℚ) then
    baseUsers.enum.map (fun p =>
      { p.2 with opacity := 1, key := "u-" ++ Nat.repr p.1 })
  else
    let perUser := (perUserOf ctx.duplicationThreshold count).toNat
    baseUsers.enum.flatMap (fun p =>
      { p.2 with opacity := 1, key := "u-" ++ Nat.repr p.1 } ::
      (List.range perUser).map (fun d =>
        let off := offsetFor ctx.cosF ctx.sinF ctx.piQ p.1 d
        { p.2 with
            x := p.2.x + off.1 * ctx.stageW,
            y := p.2.y + off.2 * ctx.stageH,
            opacity := 8/10,
            key := "u-" ++ Nat.repr p.1 ++ "-d" ++ Nat.repr d }))

/-- Apply a sequence of ref mutations (field, value) to the channel. -/
def applyMutations (s : ChanState) (ms : List (RefField × ℚ)) : ChanState :=
  ms.foldl (fun t fv => t.step (.mutate fv.1 fv.2)) s

/-! ## JavaScript 32-bit bitwise OR (for the `debounceMs | 5` of the
`UserRoomState` constructor) -/

/-- `ToUint32`: the unsigned 32-bit representative of an integer. -/
def toUint32 (a : ℤ) : ℕ := (a % (2 ^ 32 : ℤ)).toNat

/-- Reinterpret an unsigned 32-bit value as a signed 32-bit integer
(two's complement). -/
def toInt32 (u : ℕ) : ℤ :=
  if u % 2 ^ 32 < 2 ^ 31 then ((u % 2 ^ 32 : ℕ) : ℤ)
  else ((u % 2 ^ 32 : ℕ) : ℤ) - 2 ^ 32

/-- JavaScript `a | b` on 32-bit integer values. -/
def jsOr (a b : ℤ) : ℤ := toInt32 (toUint32 a ||| toUint32 b)

/-- `this._debounceMs = Math.max(0, debounceMs | 5)` from the
`UserRoomState` constructor. -/
def effectiveDebounce (debounceMs : ℤ) : ℤ := max 0 (jsOr debounceMs 5)

/-! ## Theorems -/

/-- Claim C7: the duplicate offset is a pure, deterministic function of
`(participantIndex, duplicateIndex)`: its direction angle is the element of
`{0°, 72°, 144°, 216°, 288°}` at position `(i + d) % 5`, its radius is
`0.18 + ((i + d) % 3) * 0.05` of the stage size, hence lies in
`[0.18, 0.28]`, and identical inputs (indeed, inputs with the same `i + d`)
always yield identical offsets, for every interpretation of
`Math.cos`/`Math.sin`/`Math.PI` — no randomness is consumed. -/
theorem offsetFor_star_pattern (cosF sinF : ℚ → ℚ) (piQ : ℚ) (i d j e : ℕ)
    (hsum : i + d = j + e) :
    offsetAngleDeg i d = starAngles.getD ((i + d) % 5) 0 ∧
    offsetAngleDeg i d ∈ starAngles ∧
    offsetRadius i d = 18/100 + (((i + d) % 3 : ℕ) : ℚ) * (5/100) ∧
    18/100 ≤ offsetRadius i d ∧ offsetRadius i d ≤ 28/100 ∧
    offsetFor cosF sinF piQ i d = offsetFor cosF sinF piQ j e := by
  refine ⟨rfl, ?_, rfl, ?_, ?_, ?_⟩
  · have h5 : (i + d) % 5 < 5 := Nat.mod_lt _ (by norm_num)
    have hlen : starAngles.length = 5 := rfl
    unfold offsetAngleDeg
    rw [hlen]
    interval_cases h : (i + d) % 5 <;> decide
  · have h3 : (0 : ℚ) ≤ (((i + d) % 3 : ℕ) : ℚ) := Nat.cast_nonneg _
    unfold offsetRadius
    nlinarith
  · have h3 : (((i + d) % 3 : ℕ) : ℚ) ≤ 2 := by
      have : (i + d) % 3 ≤ 2 := Nat.lt_succ_iff.mp (Nat.mod_lt _ (by norm_num))
      exact_mod_cast this
    unfold offsetRadius
    nlinarith
  · unfold offsetFor offsetAngleDeg offsetRadius
    rw [hsum]

/-- Witness for C7 at `(i, d) = (2, 3)` and `(j, e) = (4, 1)`. -/
theorem offsetFor_star_pattern_witness :
    offsetAngleDeg 2 3 = starAngles.getD ((2 + 3) % 5) 0 ∧
    offsetAngleDeg 2 3 ∈ starAngles ∧
    offsetRadius 2 3 = 18/100 + (((2 + 3) % 3 : ℕ) : ℚ) * (5/100) ∧
    18/100 ≤ offsetRadius 2 3 ∧ offsetRadius 2 3 ≤ 28/100 ∧
    offsetFor (fun _ => 1) (fun _ => 0) 3 2 3 =
      offsetFor (fun _ => 1) (fun _ => 0) 3 4 1 :=
  offsetFor_star_pattern (fun _ => 1) (fun _ => 0) 3 2 3 4 1 (by decide)

/-- Refutation of claim C10's "for every non-negative argument the
effective window is at least 5 ms": at `debounceMs = 2^31` the 32-bit
coercion of the bitwise OR makes `2^31 | 5` negative (`-2147483643`), so
the effective window is `Math.max(0, …) = 0` ms — below 5. -/
theorem effectiveDebounce_overflow_counterexample :
    (0 : ℤ) ≤ 2 ^ 31 ∧
    jsOr (2 ^ 31) 5 = -2147483643 ∧
    effectiveDebounce (2 ^ 31) = 0 ∧
    ¬ (5 ≤ effectiveDebounce (2 ^ 31)) := by
  refine ⟨by norm_num, by decide, by decide, ?_⟩
  intro h
  rw [show effectiveDebounce (2 ^ 31) = 0 from by decide] at h
  exact absurd h (by norm_num)

/-- Claim C10 amended: the channel's effective debounce duration is
`Math.max(0, debounceMs | 5)` with `|` the 32-bit bitwise OR; the default
argument `0` yields 5 ms, a requested `10` yields 15 ms, and for every
non-negative argument *below `2^31`* (those whose 32-bit value is still
non-negative) the window is at least 5 ms and differs from the request
whenever the request's binary bit 0 or bit 2 is unset — whereas from
`2^31` up the OR result turns negative and the window collapses to 0 ms. -/
theorem effectiveDebounce_or5 (d : ℤ) (h0 : 0 ≤ d) (h31 : d < 2 ^ 31) :
    effectiveDebounce 0 = 5 ∧ effectiveDebounce 10 = 15 ∧
    effectiveDebounce d = ((d.toNat ||| 5 : ℕ) : ℤ) ∧
    5 ≤ effectiveDebounce d ∧
    ((d.toNat.testBit 0 = false ∨ d.toNat.testBit 2 = false) →
      effectiveDebounce d ≠ d) := by
  have hn31 : d.toNat < 2 ^ 31 := by omega
  have hlor31 : d.toNat ||| 5 < 2 ^ 31 :=
    Nat.bitwise_lt_two_pow hn31 (by norm_num)
  have hu : toUint32 d = d.toNat := by
    unfold toUint32
    rw [Int.emod_eq_of_lt h0 (by omega)]
  have hu5 : toUint32 5 = 5 := by decide
  have heq : effectiveDebounce d = ((d.toNat ||| 5 : ℕ) : ℤ) := by
    unfold effectiveDebounce jsOr toInt32
    rw [hu, hu5]
    have hm : (d.toNat ||| 5) % 2 ^ 32 = d.toNat ||| 5 :=
      Nat.mod_eq_of_lt (by omega)
    rw [hm, if_pos hlor31]
    exact max_eq_right (Int.natCast_nonneg _)
  have hbit0 : (d.toNat ||| 5).testBit 0 = true := by
    rw [Nat.testBit_lor]
    have h5 : Nat.testBit 5 0 = true := by decide
    simp [h5]
  have hbit2 : (d.toNat ||| 5).testBit 2 = true := by
    rw [Nat.testBit_lor]
    have h5 : Nat.testBit 5 2 = true := by decide
    simp [h5]
  have hge5 : 5 ≤ d.toNat ||| 5 := by
    have h4 : 2 ^ 2 ≤ d.toNat ||| 5 := Nat.testBit_implies_ge hbit2
    have hodd : (d.toNat ||| 5) % 2 = 1 := by
      have := hbit0
      rwa [Nat.testBit_zero, decide_eq_true_eq] at this
    omega
  refine ⟨by decide, by decide, heq, by rw [heq]; exact_mod_cast hge5, ?_⟩
  rintro (hb | hb) hcontra
  · rw [heq] at hcontra
    have : d.toNat ||| 5 = d.toNat := by omega
    rw [← this, hbit0] at hb
    exact Bool.noConfusion hb
  · rw [heq] at hcontra
    have : d.toNat ||| 5 = d.toNat := by omega
    rw [← this, hbit2] at hb
    exact Bool.noConfusion hb

/-- A `flatMap` whose blocks all have length `c` has length `l.length * c`. -/
theorem length_flatMap_const {α β : Type} (l : List α) (f : α → List β) (c : ℕ)
    (h : ∀ a ∈ l, (f a).length = c) : (l.flatMap f).length = l.length * c := by
  induction l with
  | nil => simp
  | cons a t ih =>
    simp only [List.flatMap_cons, List.length_append, List.length_cons]
    rw [h a (by simp), ih (fun b hb => h b (by simp [hb]))]
    ring

/-- A `flatMap` whose blocks all contain `c` elements satisfying `p`
contains `l.length * c` of them. -/
theorem countP_flatMap_const {α β : Type} (l : List α) (f : α → List β)
    (p : β → Bool) (c : ℕ) (h : ∀ a ∈ l, (f a).countP p = c) :
    (l.flatMap f).countP p = l.length * c := by
  induction l with
  | nil => simp
  | cons a t ih =>
    simp only [List.flatMap_cons, List.countP_append, List.length_cons]
    rw [h a (by simp), ih (fun b hb => h b (by simp [hb]))]
    ring

/-- The clamp bound `maxAngleDeg`, converted to radians, is non-negative
for a non-negative configured bound and positive `Math.PI`. -/
theorem maxRad_nonneg {cfg : PhysConfig} (hpi : 0 < cfg.piQ)
    (hmax : 0 ≤ cfg.maxAngleDeg) : 0 ≤ degToRad cfg.piQ cfg.maxAngleDeg := by
  unfold degToRad
  positivity

/-- After the hard clamp, the angle is within `±maxAngleDeg` radians —
whatever the inputs and the pre-clamp state were. -/
theorem tickTheta_bounded (cfg : PhysConfig) (s : PhysState) (now : ℚ)
    (xin : Option ℚ) (hpi : 0 < cfg.piQ) (hmax : 0 ≤ cfg.maxAngleDeg) :
    |tickTheta cfg s now xin| ≤ degToRad cfg.piQ cfg.maxAngleDeg := by
  have h0 := maxRad_nonneg hpi hmax
  unfold tickTheta
  dsimp only
  split
  · exact le_of_eq (abs_of_nonneg h0)
  · split
    · rw [abs_neg, abs_of_nonneg h0]
    · rename_i h1 h2
      rw [abs_le]
      constructor <;> linarith

/-- A radian value within the radian clamp converts to a degree value
within `±maxAngleDeg`. -/
theorem radToDeg_within {cfg : PhysConfig} {r : ℚ} (hpi : 0 < cfg.piQ)
    (hr : |r| ≤ degToRad cfg.piQ cfg.maxAngleDeg) :
    |radToDeg cfg.piQ r| ≤ cfg.maxAngleDeg := by
  have hpi0 : cfg.piQ ≠ 0 := ne_of_gt hpi
  have hconv : degToRad cfg.piQ cfg.maxAngleDeg * (180 / cfg.piQ) =
      cfg.maxAngleDeg := by
    unfold degToRad
    field_simp
  have hfac : (0 : ℚ) ≤ 180 / cfg.piQ := by positivity
  calc |radToDeg cfg.piQ r| = |r| * (180 / cfg.piQ) := by
        unfold radToDeg
        rw [abs_mul, abs_of_nonneg hfac]
    _ ≤ degToRad cfg.piQ cfg.maxAngleDeg * (180 / cfg.piQ) := by
        exact mul_le_mul_of_nonneg_right hr hfac
    _ = cfg.maxAngleDeg := hconv

/-- One tick keeps the internal angle within the radian clamp. -/
theorem tick_theta_invariant (cfg : PhysConfig) (s : PhysState) (now : ℚ)
    (xin : Option ℚ) (hpi : 0 < cfg.piQ) (hmax : 0 ≤ cfg.maxAngleDeg)
    (hs : |s.theta| ≤ degToRad cfg.piQ cfg.maxAngleDeg) :
    |(tick cfg s now xin).1.theta| ≤ degToRad cfg.piQ cfg.maxAngleDeg := by
  unfold tick
  split
  · simpa using hs
  · simpa using tickTheta_bounded cfg s now xin hpi hmax

/-- Every angle a tick emits is within `±maxAngleDeg` degrees. -/
theorem tick_emit_bounded (cfg : PhysConfig) (s : PhysState) (now : ℚ)
    (xin : Option ℚ) (hpi : 0 < cfg.piQ) (hmax : 0 ≤ cfg.maxAngleDeg)
    (e : ℚ) (he : (tick cfg s now xin).2 = some e) :
    |e| ≤ cfg.maxAngleDeg := by
  unfold tick at he
  split at he
  · simp at he
  · simp only at he
    split at he
    · have he2 : tickThetaDeg cfg s now xin = e := Option.some_injective _ he
      rw [← he2]
      exact radToDeg_within hpi (tickTheta_bounded cfg s now xin hpi hmax)
    · simp at he

/-- The run invariant behind claim C1. -/
theorem runPhys_invariant (cfg : PhysConfig) (hpi : 0 < cfg.piQ)
    (hmax : 0 ≤ cfg.maxAngleDeg) :
    ∀ (inputs : List (ℚ × Option ℚ)) (s : PhysState),
      |s.theta| ≤ degToRad cfg.piQ cfg.maxAngleDeg →
      |(runPhys cfg s inputs).1.theta| ≤ degToRad cfg.piQ cfg.maxAngleDeg ∧
      ∀ e ∈ (runPhys cfg s inputs).2, |e| ≤ cfg.maxAngleDeg := by
  intro inputs
  induction inputs with
  | nil =>
    intro s hs
    exact ⟨hs, by simp [runPhys]⟩
  | cons tx rest ih =>
    intro s hs
    obtain ⟨t, x⟩ := tx
    have hstep := tick_theta_invariant cfg s t x hpi hmax hs
    have hrec := ih (tick cfg s t x).1 hstep
    refine ⟨by simpa [runPhys] using hrec.1, ?_⟩
    intro e he
    simp only [runPhys, List.mem_append] at he
    rcases he with he | he
    · have : (tick cfg s t x).2 = some e := by
        cases h2 : (tick cfg s t x).2 with
        | none => rw [h2] at he; simp at he
        | some v =>
          rw [h2] at he
          simp at he
          rw [he]
      exact tick_emit_bounded cfg s t x hpi hmax e this
    · exact hrec.2 e he

/-- Claim C1: for every sequence of position samples and time steps
(including missing/non-finite or adversarially jumping x inputs), after
every tick the rotation angle stays within `[-maxAngleDeg, +maxAngleDeg]`
degrees, and every angle emitted to the callback lies in that interval
(here for every run from the constructor state, with the configured bound
non-negative and a positive stand-in for `Math.PI`). -/
theorem penPhysics_angle_bounded (cfg : PhysConfig) (x0 : Option ℚ) (t0 : ℚ)
    (inputs : List (ℚ × Option ℚ)) (hpi : 0 < cfg.piQ)
    (hmax : 0 ≤ cfg.maxAngleDeg) :
    |radToDeg cfg.piQ (runPhys cfg (initPhys x0 t0) inputs).1.theta| ≤
      cfg.maxAngleDeg ∧
    ∀ e ∈ (runPhys cfg (initPhys x0 t0) inputs).2, |e| ≤ cfg.maxAngleDeg := by
  have h0 : |(initPhys x0 t0).theta| ≤ degToRad cfg.piQ cfg.maxAngleDeg := by
    simpa [initPhys] using maxRad_nonneg hpi hmax
  have h := runPhys_invariant cfg hpi hmax inputs (initPhys x0 t0) h0
  exact ⟨radToDeg_within hpi h.1, h.2⟩

/-- Witness for C1: the default-flavoured configuration, an adversarial
position jump from `1` to a missing sample to `-50`, across three frames. -/
theorem penPhysics_angle_bounded_witness :
    |radToDeg (355/113)
        (runPhys
          { maxAngleDeg := 28, velocityGain := 22, tauVx := 1/20, k := 121/4,
            c := 11/4, minEmitDeltaDeg := 1/4, restTheta := 1/100,
            restOmega := 1/10, interval := 100, piQ := 355/113 }
          (initPhys (some 1) 0)
          [(16, none), (32, some (-50)), (48, some 1)]).1.theta| ≤ 28 ∧
    ∀ e ∈ (runPhys
          { maxAngleDeg := 28, velocityGain := 22, tauVx := 1/20, k := 121/4,
            c := 11/4, minEmitDeltaDeg := 1/4, restTheta := 1/100,
            restOmega := 1/10, interval := 100, piQ := 355/113 }
          (initPhys (some 1) 0)
          [(16, none), (32, some (-50)), (48, some 1)]).2, |e| ≤ 28 :=
  penPhysics_angle_bounded
    { maxAngleDeg := 28, velocityGain := 22, tauVx := 1/20, k := 121/4,
      c := 11/4, minEmitDeltaDeg := 1/4, restTheta := 1/100,
      restOmega := 1/10, interval := 100, piQ := 355/113 }
    (some 1) 0 [(16, none), (32, some (-50)), (48, some 1)]
    (by norm_num) (by norm_num)

/-- Claim C2: a tick (with positive `dt`) emits the angle to the callback
iff the explicit trigger was set since the previous tick, or the system is
not at rest (angular speed at or above `restOmega`, or distance to target
at or above `restTheta`) and at least `updateInterval` ms elapsed since the
last emission and the angle moved at least `minEmitDeltaDeg` from the last
emitted value (vacuously, when nothing was emitted yet); at rest with no
trigger, no emission occurs. -/
theorem tick_emit_iff (cfg : PhysConfig) (s : PhysState) (now : ℚ)
    (xin : Option ℚ) (h : s.lastTick < now) :
    (tick cfg s now xin).2 ≠ none ↔
      (s.forceEmit = true ∨
        (tickAtRest cfg s now xin = false ∧
         cfg.interval ≤ now - s.lastEmitTime ∧
         tickChangedEnough cfg s now xin = true)) := by
  have hdt : ¬ ((now - s.lastTick) / 1000 ≤ 0) := by
    push_neg
    have hpos : 0 < now - s.lastTick := sub_pos.mpr h
    positivity
  unfold tick
  rw [if_neg hdt]
  dsimp only
  have hif : ∀ (b : Bool) (v : ℚ),
      ((if b then some v else none) ≠ none) ↔ b = true := by
    intro b v
    cases b <;> simp
  rw [hif]
  unfold tickShouldEmit
  simp only [Bool.or_eq_true, Bool.and_eq_true, decide_eq_true_eq,
    Bool.not_eq_true', ge_iff_le]
  tauto

/-- Witness for C2: a forced-trigger state emits on the next tick. -/
theorem tick_emit_iff_witness :
    (tick
        { maxAngleDeg := 28, velocityGain := 22, tauVx := 1/20, k := 121/4,
          c := 11/4, minEmitDeltaDeg := 1/4, restTheta := 1/100,
          restOmega := 1/10, interval := 100, piQ := 355/113 }
        { theta := 0, omega := 0, target := 0, prevX := 1/2, vxFilt := 0,
          lastEmitTime := 0, lastEmitted := none, forceEmit := true,
          lastTick := 0 } 16 (some (1/2))).2 ≠ none ↔
      (({ theta := 0, omega := 0, target := 0, prevX := 1/2, vxFilt := 0,
          lastEmitTime := 0, lastEmitted := none, forceEmit := true,
          lastTick := 0 } : PhysState).forceEmit = true ∨
        (tickAtRest
          { maxAngleDeg := 28, velocityGain := 22, tauVx := 1/20, k := 121/4,
            c := 11/4, minEmitDeltaDeg := 1/4, restTheta := 1/100,
            restOmega := 1/10, interval := 100, piQ := 355/113 }
          { theta := 0, omega := 0, target := 0, prevX := 1/2, vxFilt := 0,
            lastEmitTime := 0, lastEmitted := none, forceEmit := true,
            lastTick := 0 } 16 (some (1/2)) = false ∧
         (100 : ℚ) ≤ 16 - 0 ∧
         tickChangedEnough
          { maxAngleDeg := 28, velocityGain := 22, tauVx := 1/20, k := 121/4,
            c := 11/4, minEmitDeltaDeg := 1/4, restTheta := 1/100,
            restOmega := 1/10, interval := 100, piQ := 355/113 }
          { theta := 0, omega := 0, target := 0, prevX := 1/2, vxFilt := 0,
            lastEmitTime := 0, lastEmitted := none, forceEmit := true,
            lastTick := 0 } 16 (some (1/2)) = true)) :=
  tick_emit_iff _ _ 16 (some (1/2)) (by norm_num)

/-- Refutation of claim C9 as stated: on a tick whose x input is missing or
non-finite, the engine substitutes the center position `0.5` but not a zero
velocity — from the constructor state sampled at `x = 1`, the raw velocity
of a `NaN` tick is `-10`, not `0`. -/
theorem readX_nan_nonzero_velocity :
    readX none = 1/2 ∧
    tickRawVx (initPhys (some 1) 0) 100 none = -10 ∧
    ¬ tickRawVx (initPhys (some 1) 0) 100 none = 0 := by
  refine ⟨by norm_num [readX], ?_, ?_⟩ <;>
    norm_num [tickRawVx, tickDt, initPhys, readX]

/-- Two x inputs with the same sanitized `_readX` value produce identical
ticks. -/
theorem tick_readX_congr (cfg : PhysConfig) (s : PhysState) (now : ℚ)
    {a b : Option ℚ} (hx : readX a = readX b) :
    tick cfg s now a = tick cfg s now b := by
  unfold tick tickShouldEmit tickChangedEnough tickAtRest tickThetaDeg
    tickTheta tickOmega tickThetaRaw tickOmegaRaw tickTarget tickTargetDeg
    tickVxFilt tickRawVx
  rw [hx]

/-- Claim C9 amended: a missing/non-finite x input is substituted by the
center position `x = 0.5` for that tick — the tick behaves exactly as if
`0.5` had been read, so the invalid value never propagates — but the
velocity is still differenced from the previous sample: the raw velocity of
such a tick is zero iff the previously sampled position was `0.5`. -/
theorem readX_nan_substitution (cfg : PhysConfig) (s : PhysState) (now : ℚ)
    (h : s.lastTick < now) :
    readX none = 1/2 ∧
    tick cfg s now none = tick cfg s now (some (1/2)) ∧
    (tickRawVx s now none = 0 ↔ s.prevX = 1/2) := by
  have hdt : 0 < tickDt s now := by
    unfold tickDt
    dsimp only
    split
    · norm_num
    · have hpos : 0 < now - s.lastTick := sub_pos.mpr h
      positivity
  have hr : readX none = 1/2 := by norm_num [readX]
  refine ⟨hr, tick_readX_congr cfg s now (by norm_num [readX]), ?_⟩
  unfold tickRawVx
  rw [div_eq_zero_iff]
  rw [hr]
  constructor
  · rintro (h1 | h1)
    · linarith [sub_eq_zero.mp h1]
    · exact absurd h1 (ne_of_gt hdt)
  · intro h1
    left
    rw [h1]
    ring

/-- Witness for the amended C9 at the constructor state sampled at
`x = 1/2`. -/
theorem readX_nan_substitution_witness :
    readX none = 1/2 ∧
    tick
        { maxAngleDeg := 28, velocityGain := 22, tauVx := 1/20, k := 121/4,
          c := 11/4, minEmitDeltaDeg := 1/4, restTheta := 1/100,
          restOmega := 1/10, interval := 100, piQ := 355/113 }
        (initPhys (some (1/2)) 0) 16 none =
      tick
        { maxAngleDeg := 28, velocityGain := 22, tauVx := 1/20, k := 121/4,
          c := 11/4, minEmitDeltaDeg := 1/4, restTheta := 1/100,
          restOmega := 1/10, interval := 100, piQ := 355/113 }
        (initPhys (some (1/2)) 0) 16 (some (1/2)) ∧
    (tickRawVx (initPhys (some (1/2)) 0) 16 none = 0 ↔
      (initPhys (some (1/2)) 0).prevX = 1/2) :=
  readX_nan_substitution _ (initPhys (some (1/2)) 0) 16
    (by norm_num [initPhys])

/-- Reading one position of a list and overwriting it, pulled to the
front, is a permutation of pulling the overwriting value to the front. -/
theorem perm_get_cons_set {α : Type} :
    ∀ (t : List α) (m : ℕ) (h : m < t.length) (a : α),
      (t.get ⟨m, h⟩ :: t.set m a).Perm (a :: t)
  | _ :: u, 0, _, a => List.Perm.swap a _ u
  | b :: u, m + 1, h, a =>
    ((List.Perm.swap b _ _).trans
      ((perm_get_cons_set u m (Nat.lt_of_succ_lt_succ h) a).cons b)).trans
      (List.Perm.swap a b u)

/-- The two-`set` destructuring swap permutes the list. -/
theorem set_set_swap_perm {α : Type} :
    ∀ (l : List α) (i j : ℕ) (hi : i < l.length) (hj : j < l.length),
      ((l.set i (l.get ⟨j, hj⟩)).set j (l.get ⟨i, hi⟩)).Perm l
  | _ :: _, 0, 0, _, _ => List.Perm.refl _
  | a :: t, 0, j + 1, _, hj =>
    perm_get_cons_set t j (Nat.lt_of_succ_lt_succ hj) a
  | a :: t, i + 1, 0, hi, _ =>
    perm_get_cons_set t i (Nat.lt_of_succ_lt_succ hi) a
  | a :: t, i + 1, j + 1, hi, hj =>
    (set_set_swap_perm t i j (Nat.lt_of_succ_lt_succ hi)
      (Nat.lt_of_succ_lt_succ hj)).cons a

/-- `listSwap` permutes the list. -/
theorem listSwap_perm {l : List ℕ} {i j : ℕ} : (listSwap l i j).Perm l := by
  unfold listSwap
  split
  · rename_i h
    exact set_set_swap_perm l i j h.1 h.2
  · exact List.Perm.refl l

/-- The Fisher–Yates loop permutes the list, for every random draw
sequence. -/
theorem fyAux_perm (draws : ℕ → ℕ) : ∀ (i : ℕ) (l : List ℕ),
    (fyAux draws i l).Perm l
  | 0, l => List.Perm.refl l
  | i + 1, _ => (fyAux_perm draws i _).trans listSwap_perm

/-- Claim C5: with the roster strictly larger than the capacity, each
subset refresh yields exactly `maxN` pairwise-distinct valid roster
indices (the head of a Fisher–Yates permutation of all indices), and only
roster entries at those indices are admitted as base display entries; with
the roster at most the capacity, or no capacity set, the filter is
bypassed and every roster entry is admitted.  `draws i` is the value
`Math.floor(Math.random() * (i + 1))` consumed at loop counter `i`; the
`Math.random()` range contract gives `draws i ≤ i`. -/
theorem pickSubset_admission {α : Type} (draws : ℕ → ℕ) (users : List α)
    (maxN : ℕ) (_hdraws : ∀ i, draws i ≤ i) :
    (maxN < users.length →
      (pickSubset draws users.length maxN).length = maxN ∧
      (pickSubset draws users.length maxN).Nodup ∧
      (∀ k ∈ pickSubset draws users.length maxN, k < users.length) ∧
      (maxN ≠ 0 →
        ∀ u ∈ displayedBase users maxN (pickSubset draws users.length maxN),
          ∃ i ∈ pickSubset draws users.length maxN, users.get? i = some u)) ∧
    ((maxN = 0 ∨ users.length ≤ maxN) →
      displayedBase users maxN (pickSubset draws users.length maxN) = users) := by
  have hperm : (fyAux draws (users.length - 1) (List.range users.length)).Perm
      (List.range users.length) := fyAux_perm draws _ _
  have hlen : (fyAux draws (users.length - 1) (List.range users.length)).length
      = users.length := by
    rw [hperm.length_eq, List.length_range]
  constructor
  · intro hcap
    refine ⟨?_, ?_, ?_, ?_⟩
    · unfold pickSubset
      rw [List.length_take, hlen]
      omega
    · exact List.Nodup.sublist (List.take_sublist _ _)
        ((List.nodup_range _).perm hperm.symm)
    · intro k hk
      have : k ∈ List.range users.length :=
        hperm.mem_iff.mp (List.take_subset _ _ hk)
      exact List.mem_range.mp this
    · intro hmx u hu
      unfold displayedBase at hu
      rw [if_pos ⟨hmx, hcap⟩] at hu
      obtain ⟨p, hp, rfl⟩ := List.mem_map.mp hu
      have hp2 := List.mem_filter.mp hp
      refine ⟨p.1, by simpa using hp2.2, ?_⟩
      rw [List.get?_eq_getElem?]
      exact List.mem_enum_iff_getElem?.mp hp2.1
  · intro hby
    unfold displayedBase
    rcases hby with h | h
    · rw [if_neg]
      omega
    · rw [if_neg]
      omega

/-- Witness for C5: roster of 4 with capacity 2 (filtered), and roster of
2 with capacity 3 (bypassed), under the all-zero draw sequence. -/
theorem pickSubset_admission_witness :
    ((2 < [10, 20, 30, 40].length →
      (pickSubset (fun _ => 0) [10, 20, 30, 40].length 2).length = 2 ∧
      (pickSubset (fun _ => 0) [10, 20, 30, 40].length 2).Nodup ∧
      (∀ k ∈ pickSubset (fun _ => 0) [10, 20, 30, 40].length 2,
        k < [10, 20, 30, 40].length) ∧
      ((2 : ℕ) ≠ 0 → ∀ u ∈ displayedBase [10, 20, 30, 40] 2
          (pickSubset (fun _ => 0) [10, 20, 30, 40].length 2),
        ∃ i ∈ pickSubset (fun _ => 0) [10, 20, 30, 40].length 2,
          [10, 20, 30, 40].get? i = some u))) ∧
    displayedBase [5, 6] 3 (pickSubset (fun _ => 0) [5, 6].length 3) = [5, 6] :=
  ⟨fun h => (pickSubset_admission (fun _ => 0) [10, 20, 30, 40] 2
      (fun i => Nat.zero_le i)).1 h,
   (pickSubset_admission (fun _ => 0) [5, 6] 3
      (fun i => Nat.zero_le i)).2 (Or.inr (by norm_num))⟩

/-- Claim C6: with duplication on and `roster.length < threshold`
(roster non-empty), the admission cycle emits, per roster entry, the
original slot (opacity 1) plus exactly `perUser` duplicates (opacity 0.8),
where `perUser = min(3, max(1, ceil((threshold - count) / count)))` — a
total of `count * (1 + perUser)` slots; with duplication off or
`roster.length ≥ threshold`, exactly one slot per admitted entry. -/
theorem makeDuplicates_slot_counts (ctx : DupCtx) (baseUsers : List Slot) :
    (ctx.duplicateUsers = true →
      ((baseUsers.length : ℚ) < ctx.duplicationThreshold) →
      1 ≤ baseUsers.length →
      (makeDuplicates ctx baseUsers).length =
        baseUsers.length *
          (1 + (perUserOf ctx.duplicationThreshold baseUsers.length).toNat) ∧
      perUserOf ctx.duplicationThreshold baseUsers.length =
        min 3 (max 1
          ⌈(ctx.duplicationThreshold - (baseUsers.length : ℚ)) /
            (baseUsers.length : ℚ)⌉) ∧
      (makeDuplicates ctx baseUsers).countP (fun s => decide (s.opacity = 1)) =
        baseUsers.length ∧
      (makeDuplicates ctx baseUsers).countP (fun s => decide (s.opacity = 8/10)) =
        baseUsers.length *
          (perUserOf ctx.duplicationThreshold baseUsers.length).toNat) ∧
    ((ctx.duplicateUsers = false ∨
        ctx.duplicationThreshold ≤ (baseUsers.length : ℚ)) →
      (makeDuplicates ctx baseUsers).length = baseUsers.length ∧
      ∀ s ∈ makeDuplicates ctx baseUsers, s.opacity = 1) := by
  constructor
  · intro hdup hlt h1
    have h1q : (1 : ℚ) ≤ (baseUsers.length : ℚ) := by exact_mod_cast h1
    have hcond : ¬ (ctx.duplicateUsers = false ∨ ctx.duplicationThreshold ≤ 0 ∨
        ctx.duplicationThreshold ≤ (baseUsers.length : ℚ)) := by
      push_neg
      exact ⟨by simp [hdup], by linarith, by linarith⟩
    have hmk : makeDuplicates ctx baseUsers =
        baseUsers.enum.flatMap (fun p =>
          { p.2 with opacity := 1, key := "u-" ++ Nat.repr p.1 } ::
          (List.range (perUserOf ctx.duplicationThreshold baseUsers.length).toNat).map
            (fun d =>
              let off := offsetFor ctx.cosF ctx.sinF ctx.piQ p.1 d
              { p.2 with
                  x := p.2.x + off.1 * ctx.stageW,
                  y := p.2.y + off.2 * ctx.stageH,
                  opacity := 8/10,
                  key := "u-" ++ Nat.repr p.1 ++ "-d" ++ Nat.repr d })) := by
      unfold makeDuplicates
      rw [if_neg hcond]
    have hper : perUserOf ctx.duplicationThreshold baseUsers.length =
        min 3 (max 1
          ⌈(ctx.duplicationThreshold - (baseUsers.length : ℚ)) /
            (baseUsers.length : ℚ)⌉) := by
      unfold perUserOf
      rw [max_eq_right (by linarith : (0:ℚ) ≤ ctx.duplicationThreshold - (baseUsers.length : ℚ)),
          max_eq_right h1q]
    refine ⟨?_, hper, ?_, ?_⟩
    · rw [hmk, length_flatMap_const _ _
        (1 + (perUserOf ctx.duplicationThreshold baseUsers.length).toNat)
        (fun a _ => by simp [Nat.add_comm]), List.enum_length]
    · rw [hmk, countP_flatMap_const _ _ _ 1 (fun a _ => ?_), List.enum_length,
        Nat.mul_one]
      simp only [List.countP_cons, List.countP_map, Function.comp_def]
      have hd : ((8 : ℚ)/10 = 1) = False := by norm_num
      simp [hd]
    · rw [hmk, countP_flatMap_const _ _ _
        (perUserOf ctx.duplicationThreshold baseUsers.length).toNat
        (fun a _ => ?_), List.enum_length]
      simp only [List.countP_cons, List.countP_map, Function.comp_def]
      have hd : ((8 : ℚ)/10 = 8/10) = True := by norm_num
      have hd1 : ((1 : ℚ) = 8/10) = False := by norm_num
      simp [hd, hd1, List.countP_true]
  · intro hoff
    have hcond : (ctx.duplicateUsers = false ∨ ctx.duplicationThreshold ≤ 0 ∨
        ctx.duplicationThreshold ≤ (baseUsers.length : ℚ)) := by
      rcases hoff with h | h
      · exact Or.inl h
      · exact Or.inr (Or.inr h)
    have hmk : makeDuplicates ctx baseUsers =
        baseUsers.enum.map (fun p =>
          { p.2 with opacity := 1, key := "u-" ++ Nat.repr p.1 }) := by
      unfold makeDuplicates
      rw [if_pos hcond]
    constructor
    · rw [hmk, List.length_map, List.enum_length]
    · intro s hs
      rw [hmk] at hs
      obtain ⟨p, _, rfl⟩ := List.mem_map.mp hs
      rfl

/-- Witness for C6: the spec scenario `duplicateUsers = true, threshold = 5`,
roster size 2, giving `perUser = 2` and `2 + 2*2 = 6` emitted slots. -/
theorem makeDuplicates_slot_counts_witness :
    (makeDuplicates
        { duplicateUsers := true, duplicationThreshold := 5,
          stageW := 100, stageH := 50,
          cosF := fun _ => 1, sinF := fun _ => 0, piQ := 355/113 }
        [{ x := 0, y := 0, theta := 0, hex := "FF0000",
           nickname := "a", opacity := 1, key := "b-0" },
         { x := 1/2, y := 1/2, theta := 0, hex := "00FF00",
           nickname := "b", opacity := 1, key := "b-1" }]).length = 6 ∧
    perUserOf 5 2 = 2 := by
  have h := (makeDuplicates_slot_counts
    { duplicateUsers := true, duplicationThreshold := 5,
      stageW := 100, stageH := 50,
      cosF := fun _ => 1, sinF := fun _ => 0, piQ := 355/113 }
    [{ x := 0, y := 0, theta := 0, hex := "FF0000",
       nickname := "a", opacity := 1, key := "b-0" },
     { x := 1/2, y := 1/2, theta := 0, hex := "00FF00",
       nickname := "b", opacity := 1, key := "b-1" }]).1
    rfl (by norm_num) (by norm_num)
  have hp : perUserOf 5 2 = 2 := by
    have hc : ⌈((3:ℚ))/2⌉ = 2 := by
      rw [Int.ceil_eq_iff]
      constructor <;> norm_num
    unfold perUserOf
    push_cast
    norm_num [hc]
  refine ⟨?_, hp⟩
  rw [h.1]
  show 2 * (1 + (perUserOf 5 2).toNat) = 6
  rw [hp]
  rfl

/-- `_scheduleSend` touches nothing but the debounce timer flag. -/
theorem scheduleSend_fields (t : ChanState) :
    t.scheduleSend.sent = t.sent ∧ t.scheduleSend.sockets = t.sockets ∧
    t.scheduleSend.currentSock = t.currentSock ∧
    t.scheduleSend.refs = t.refs ∧
    t.scheduleSend.closedManually = t.closedManually ∧
    t.scheduleSend.pendingReconnects = t.pendingReconnects := by
  unfold ChanState.scheduleSend
  split
  · exact ⟨rfl, rfl, rfl, rfl, rfl, rfl⟩
  · split <;> exact ⟨rfl, rfl, rfl, rfl, rfl, rfl⟩

/-- Whether the socket is open is untouched by `_scheduleSend`. -/
theorem scheduleSend_sockOpen (t : ChanState) :
    t.scheduleSend.sockOpen = t.sockOpen := by
  unfold ChanState.sockOpen
  rw [(scheduleSend_fields t).2.2.1, (scheduleSend_fields t).2.1]

/-- `_scheduleSend` on an open socket leaves the debounce timer armed. -/
theorem scheduleSend_timer_open (t : ChanState) (h : t.sockOpen = true) :
    t.scheduleSend.sendTimer = true := by
  unfold ChanState.scheduleSend
  rw [h]
  cases ht : t.sendTimer <;> simp [ht]

/-- A ref write on an open socket: the refs are updated, the timer ends up
armed, and nothing is sent; on a non-open socket the write is a silent
no-op apart from the ref value itself. -/
theorem mutate_step_spec (t : ChanState) (f : RefField) (v : ℚ) :
    (t.step (.mutate f v)).sent = t.sent ∧
    (t.step (.mutate f v)).sockOpen = t.sockOpen ∧
    (t.step (.mutate f v)).refs = t.refs.set f v ∧
    (t.sockOpen = true → (t.step (.mutate f v)).sendTimer = true) ∧
    (t.sockOpen = false → (t.step (.mutate f v)).sendTimer = t.sendTimer) := by
  have hbase : ({ t with refs := t.refs.set f v } : ChanState).sockOpen
      = t.sockOpen := rfl
  refine ⟨(scheduleSend_fields _).1, ?_, ?_, ?_, ?_⟩
  · show (ChanState.scheduleSend _).sockOpen = _
    rw [scheduleSend_sockOpen, hbase]
  · exact (scheduleSend_fields _).2.2.2.1
  · intro h
    exact scheduleSend_timer_open _ (hbase.trans h)
  · intro h
    show (ChanState.scheduleSend _).sendTimer = _
    unfold ChanState.scheduleSend
    rw [hbase, h]
    simp

/-- The fold of a mutation burst from an open-socket state: nothing is
sent, the socket stays open, the refs are the pure fold of the writes, and
the timer is armed as soon as the burst is non-empty. -/
theorem applyMutations_spec :
    ∀ (ms : List (RefField × ℚ)) (t : ChanState), t.sockOpen = true →
      (applyMutations t ms).sent = t.sent ∧
      (applyMutations t ms).sockOpen = true ∧
      (applyMutations t ms).refs =
        ms.foldl (fun r fv => r.set fv.1 fv.2) t.refs ∧
      ((t.sendTimer = true ∨ ms ≠ []) →
        (applyMutations t ms).sendTimer = true)
  | [], t, hopen =>
    ⟨rfl, hopen, rfl, fun h => h.elim id (fun h2 => absurd rfl h2)⟩
  | m :: rest, t, hopen => by
    have hm := mutate_step_spec t m.1 m.2
    have ht1open : (t.step (.mutate m.1 m.2)).sockOpen = true := by
      rw [hm.2.1]
      exact hopen
    have ih := applyMutations_spec rest (t.step (.mutate m.1 m.2)) ht1open
    have hfold : applyMutations t (m :: rest) =
        applyMutations (t.step (.mutate m.1 m.2)) rest := rfl
    refine ⟨?_, ?_, ?_, ?_⟩
    · rw [hfold, ih.1, hm.1]
    · rw [hfold]
      exact ih.2.1
    · rw [hfold, ih.2.2.1, hm.2.2.1]
      rfl
    · intro _
      rw [hfold]
      exact ih.2.2.2 (Or.inl (hm.2.2.2.1 hopen))

/-- Claim C3: any non-empty burst of ref mutations inside one debounce
window while the connection is open sends nothing during the burst and
exactly one update when the window expires, carrying the ref values current
at that moment (the pure fold of the writes); a mutation made while the
socket is not open arms no timer and sends nothing. -/
theorem debounce_coalesce (s t : ChanState) (ms : List (RefField × ℚ))
    (f : RefField) (v : ℚ) (hopen : s.sockOpen = true)
    (_htimer : s.sendTimer = false) (hne : ms ≠ [])
    (hnopen : t.sockOpen = false) :
    (applyMutations s ms).sent = s.sent ∧
    (applyMutations s ms).refs =
      ms.foldl (fun r fv => r.set fv.1 fv.2) s.refs ∧
    ((applyMutations s ms).step .debounceFire).sent =
      s.sent ++ [.update (payloadOf (applyMutations s ms).refs)] ∧
    (t.step (.mutate f v)).sendTimer = t.sendTimer ∧
    (t.step (.mutate f v)).sent = t.sent := by
  have hs := applyMutations_spec ms s hopen
  have harmed : (applyMutations s ms).sendTimer = true :=
    hs.2.2.2 (Or.inr hne)
  refine ⟨hs.1, hs.2.2.1, ?_, (mutate_step_spec t f v).2.2.2.2 hnopen,
    (mutate_step_spec t f v).1⟩
  show (ChanState.step _ .debounceFire).sent = _
  unfold ChanState.step
  rw [if_pos harmed]
  unfold ChanState.sendUpdate
  have hopen2 : ({ applyMutations s ms with sendTimer := false }
      : ChanState).sockOpen = true := hs.2.1
  rw [hopen2]
  simp only [Bool.true_eq_false, if_false]
  rw [hs.1]

/-- Witness for C3: from the post-flush open state, a burst of three
mutations coalesces into one update carrying the final values, and a
mutation on a closed channel is a no-op. -/
theorem debounce_coalesce_witness :
    (applyMutations
        (chanRun (initChan "ROOM" "nick" none) [.sockOpenEvt 0, .debounceFire])
        [(.x, 1/2), (.y, 1/3), (.x, 1/4)]).sent =
      (chanRun (initChan "ROOM" "nick" none)
        [.sockOpenEvt 0, .debounceFire]).sent ∧
    (applyMutations
        (chanRun (initChan "ROOM" "nick" none) [.sockOpenEvt 0, .debounceFire])
        [(.x, 1/2), (.y, 1/3), (.x, 1/4)]).refs =
      [((.x : RefField), (1:ℚ)/2), (.y, 1/3), (.x, 1/4)].foldl
        (fun r fv => r.set fv.1 fv.2)
        (chanRun (initChan "ROOM" "nick" none)
          [.sockOpenEvt 0, .debounceFire]).refs ∧
    ((applyMutations
        (chanRun (initChan "ROOM" "nick" none) [.sockOpenEvt 0, .debounceFire])
        [(.x, 1/2), (.y, 1/3), (.x, 1/4)]).step .debounceFire).sent =
      (chanRun (initChan "ROOM" "nick" none)
        [.sockOpenEvt 0, .debounceFire]).sent ++
        [.update (payloadOf (applyMutations
          (chanRun (initChan "ROOM" "nick" none)
            [.sockOpenEvt 0, .debounceFire])
          [(.x, 1/2), (.y, 1/3), (.x, 1/4)]).refs)] ∧
    ((chanRun (initChan "ROOM" "nick" none)
        [.sockOpenEvt 0, .sockCloseEvt 0]).step
      (.mutate .theta 7)).sendTimer =
      (chanRun (initChan "ROOM" "nick" none)
        [.sockOpenEvt 0, .sockCloseEvt 0]).sendTimer ∧
    ((chanRun (initChan "ROOM" "nick" none)
        [.sockOpenEvt 0, .sockCloseEvt 0]).step
      (.mutate .theta 7)).sent =
      (chanRun (initChan "ROOM" "nick" none)
        [.sockOpenEvt 0, .sockCloseEvt 0]).sent :=
  debounce_coalesce _ _ [(.x, 1/2), (.y, 1/3), (.x, 1/4)] .theta 7
    (by rfl) (by rfl) (by simp) (by rfl)

/-- Refutation of claim C4 as stated: a reconnect timer already pending
when `destroy()` is called is not cancelled — after an unexpected close of
the open socket followed by `destroy()`, the manual-close flag is set and
one reconnect is still pending; when that timer fires it performs another
`connect()` (the count rises from 1 to 2) and even clears the manual-close
flag again. -/
theorem destroy_pending_reconnect_counterexample :
    (chanRun (initChan "ROOM" "nick" none)
      [.sockOpenEvt 0, .sockCloseEvt 0, .destroyCall]).closedManually
      = true ∧
    (chanRun (initChan "ROOM" "nick" none)
      [.sockOpenEvt 0, .sockCloseEvt 0, .destroyCall]).pendingReconnects
      = 1 ∧
    (chanRun (initChan "ROOM" "nick" none)
      [.sockOpenEvt 0, .sockCloseEvt 0, .destroyCall]).connectCount = 1 ∧
    (chanRun (initChan "ROOM" "nick" none)
      [.sockOpenEvt 0, .sockCloseEvt 0, .destroyCall,
        .reconnectFire]).connectCount = 2 ∧
    (chanRun (initChan "ROOM" "nick" none)
      [.sockOpenEvt 0, .sockCloseEvt 0, .destroyCall,
        .reconnectFire]).closedManually = false ∧
    (chanRun (initChan "ROOM" "nick" none)
      [.sockOpenEvt 0, .sockCloseEvt 0, .destroyCall,
        .reconnectFire]).connectionStatus = "connecting" :=
  ⟨rfl, rfl, rfl, rfl, rfl, rfl⟩

/-- Claim C4 amended: an unexpected close (manual-close flag unset)
schedules exactly one reconnect attempt, and a close arriving with the
manual-close flag set schedules none; `destroy()` sets the flag but does
not cancel an already-pending reconnect timer, and such a pending timer
still fires afterwards, performing a reconnect and clearing the flag — so
the suppression is permanent only when no reconnect timer was pending at
`destroy()` time. -/
theorem destroy_reconnect_policy (s : ChanState) (sid : Nat)
    (st : ReadyState) (hst : s.sockets.get? sid = some st)
    (hlive : st ≠ .closedRS) :
    (s.closedManually = false →
      (s.step (.sockCloseEvt sid)).pendingReconnects
        = s.pendingReconnects + 1) ∧
    (s.closedManually = true →
      (s.step (.sockCloseEvt sid)).pendingReconnects = s.pendingReconnects) ∧
    (s.step .destroyCall).closedManually = true ∧
    (s.step .destroyCall).pendingReconnects = s.pendingReconnects ∧
    (0 < s.pendingReconnects →
      (s.step .reconnectFire).connectCount = s.connectCount + 1 ∧
      (s.step .reconnectFire).closedManually = false ∧
      (s.step .reconnectFire).connectionStatus = "connecting") := by
  refine ⟨?_, ?_, ?_, ?_, ?_⟩
  · intro hman
    show (ChanState.step s (.sockCloseEvt sid)).pendingReconnects = _
    unfold ChanState.step
    dsimp only
    rw [hst]
    cases st with
    | closedRS => exact absurd rfl hlive
    | connecting => simp [ChanState.setSock, hman]
    | opened => simp [ChanState.setSock, hman]
    | closing => simp [ChanState.setSock, hman]
  · intro hman
    show (ChanState.step s (.sockCloseEvt sid)).pendingReconnects = _
    unfold ChanState.step
    dsimp only
    rw [hst]
    cases st with
    | closedRS => rfl
    | connecting => simp [ChanState.setSock, hman]
    | opened => simp [ChanState.setSock, hman]
    | closing => simp [ChanState.setSock, hman]
  · show (ChanState.step s .destroyCall).closedManually = true
    unfold ChanState.step
    dsimp only
    split
    · rfl
    · split <;> simp [ChanState.setSock]
  · show (ChanState.step s .destroyCall).pendingReconnects = _
    unfold ChanState.step
    dsimp only
    split
    · rfl
    · split <;> simp [ChanState.setSock]
  · intro hpend
    show (ChanState.step s .reconnectFire).connectCount = _ ∧ _
    unfold ChanState.step
    dsimp only
    rw [if_pos (by simpa using hpend)]
    exact ⟨rfl, rfl, rfl⟩

/-- Witness for the amended C4, at the open state of socket 0 right after
the initial connect succeeded. -/
theorem destroy_reconnect_policy_witness :
    ((chanRun (initChan "ROOM" "nick" none)
        [.sockOpenEvt 0]).closedManually = false →
      ((chanRun (initChan "ROOM" "nick" none) [.sockOpenEvt 0]).step
        (.sockCloseEvt 0)).pendingReconnects =
        (chanRun (initChan "ROOM" "nick" none)
          [.sockOpenEvt 0]).pendingReconnects + 1) ∧
    ((chanRun (initChan "ROOM" "nick" none)
        [.sockOpenEvt 0]).closedManually = true →
      ((chanRun (initChan "ROOM" "nick" none) [.sockOpenEvt 0]).step
        (.sockCloseEvt 0)).pendingReconnects =
        (chanRun (initChan "ROOM" "nick" none)
          [.sockOpenEvt 0]).pendingReconnects) ∧
    ((chanRun (initChan "ROOM" "nick" none) [.sockOpenEvt 0]).step
      .destroyCall).closedManually = true ∧
    ((chanRun (initChan "ROOM" "nick" none) [.sockOpenEvt 0]).step
      .destroyCall).pendingReconnects =
      (chanRun (initChan "ROOM" "nick" none)
        [.sockOpenEvt 0]).pendingReconnects ∧
    (0 < (chanRun (initChan "ROOM" "nick" none)
        [.sockOpenEvt 0]).pendingReconnects →
      ((chanRun (initChan "ROOM" "nick" none) [.sockOpenEvt 0]).step
        .reconnectFire).connectCount =
        (chanRun (initChan "ROOM" "nick" none)
          [.sockOpenEvt 0]).connectCount + 1 ∧
      ((chanRun (initChan "ROOM" "nick" none) [.sockOpenEvt 0]).step
        .reconnectFire).closedManually = false ∧
      ((chanRun (initChan "ROOM" "nick" none) [.sockOpenEvt 0]).step
        .reconnectFire).connectionStatus = "connecting") :=
  destroy_reconnect_policy _ 0 .opened (by rfl) (by simp)

/-- Refutation of claim C8 as stated: the initial flush right after the
connection opens carries the constructor ref values `x = y = -100`, which
are not in `[0, 1]` — the channel itself never clamps what it sends. -/
theorem initial_flush_out_of_range :
    (chanRun (initChan "ROOM" "nick" none)
      [.sockOpenEvt 0, .debounceFire]).sent =
      [.hello "ROOM" "nick" none,
       .update { x := -100, y := -100, theta := 0, color := 0 }] ∧
    ((-100 : ℚ) < 0) :=
  ⟨rfl, by norm_num⟩

/-- Claim C8 amended: every update message carries exactly the ref values
current at the moment of sending; hence its `x` and `y` lie in `[0, 1]`
whenever the refs do at that moment — which is not the case for the
initial flush from a fresh instance, whose refs are still `-100`. -/
theorem sendUpdate_payload_range (s : ChanState)
    (htimer : s.sendTimer = true) (hopen : s.sockOpen = true)
    (hx0 : 0 ≤ s.refs.x) (hx1 : s.refs.x ≤ 1)
    (hy0 : 0 ≤ s.refs.y) (hy1 : s.refs.y ≤ 1) :
    (s.step .debounceFire).sent = s.sent ++ [.update (payloadOf s.refs)] ∧
    0 ≤ (payloadOf s.refs).x ∧ (payloadOf s.refs).x ≤ 1 ∧
    0 ≤ (payloadOf s.refs).y ∧ (payloadOf s.refs).y ≤ 1 := by
  refine ⟨?_, hx0, hx1, hy0, hy1⟩
  show (ChanState.step s .debounceFire).sent = _
  unfold ChanState.step
  rw [if_pos htimer]
  unfold ChanState.sendUpdate
  have hopen2 : ({ s with sendTimer := false } : ChanState).sockOpen = true :=
    hopen
  rw [hopen2]
  simp only [Bool.true_eq_false, if_false]

/-- Witness for the amended C8: the open state after the initial flush and
an in-range mutation burst sends in-range values. -/
theorem sendUpdate_payload_range_witness :
    ((applyMutations
        (chanRun (initChan "ROOM" "nick" none) [.sockOpenEvt 0, .debounceFire])
        [(.x, 1/2), (.y, 1/3)]).step .debounceFire).sent =
      (applyMutations
        (chanRun (initChan "ROOM" "nick" none) [.sockOpenEvt 0, .debounceFire])
        [(.x, 1/2), (.y, 1/3)]).sent ++
      [.update (payloadOf (applyMutations
        (chanRun (initChan "ROOM" "nick" none) [.sockOpenEvt 0, .debounceFire])
        [(.x, 1/2), (.y, 1/3)]).refs)] ∧
    0 ≤ (payloadOf (applyMutations
        (chanRun (initChan "ROOM" "nick" none) [.sockOpenEvt 0, .debounceFire])
        [(.x, 1/2), (.y, 1/3)]).refs).x ∧
    (payloadOf (applyMutations
        (chanRun (initChan "ROOM" "nick" none) [.sockOpenEvt 0, .debounceFire])
        [(.x, 1/2), (.y, 1/3)]).refs).x ≤ 1 ∧
    0 ≤ (payloadOf (applyMutations
        (chanRun (initChan "ROOM" "nick" none) [.sockOpenEvt 0, .debounceFire])
        [(.x, 1/2), (.y, 1/3)]).refs).y ∧
    (payloadOf (applyMutations
        (chanRun (initChan "ROOM" "nick" none) [.sockOpenEvt 0, .debounceFire])
        [(.x, 1/2), (.y, 1/3)]).refs).y ≤ 1 :=
  sendUpdate_payload_range _ (by rfl) (by rfl)
    (by show (0:ℚ) ≤ 1/2; norm_num) (by show (1:ℚ)/2 ≤ 1; norm_num)
    (by show (0:ℚ) ≤ 1/3; norm_num) (by show (1:ℚ)/3 ≤ 1; norm_num)

/-- Witness for C10 at `debounceMs = 10`. -/
theorem effectiveDebounce_or5_witness :
    effectiveDebounce 0 = 5 ∧ effectiveDebounce 10 = 15 ∧
    effectiveDebounce 10 = (((10 : ℤ).toNat ||| 5 : ℕ) : ℤ) ∧
    5 ≤ effectiveDebounce 10 ∧
    (((10 : ℤ).toNat.testBit 0 = false ∨ (10 : ℤ).toNat.testBit 2 = false) →
      effectiveDebounce 10 ≠ 10) :=
  effectiveDebounce_or5 10 (by decide) (by decide)

end PenLighting
